import Mathlib

/-!
Shallow embedding of the TS-tools transition-state validation code
(`src/reaction_profile_generator/confirm_imag_modes.py`,
`src/reaction_profile_generator/irc_search.py`,
`run_scripts/dft_validation.py`, `run_scripts/run_ts_searcher_dft.py`)
together with theorems settling the specification claims.

Conventions used throughout:
* Python floats are modelled as exact rationals `ℚ` (reals `ℝ` where a
  Euclidean distance, hence a square root, is genuinely produced).
* Atom indices are `ℕ`; a bond is an ordered pair of atom indices, as in
  the Python code where a graph edge is the tuple `(i, j)`.
* A NumPy distance matrix becomes a function `ℕ → ℕ → ℚ` (entries are
  read exactly at the index pairs the code reads).
* Python dicts keyed by bonds become association lists `List ((ℕ × ℕ) × ℚ)`
  (Python set/dict iteration order is immaterial for every result proved
  here; where it could matter this is noted at the definition).
* Fallible code (a Python function that can raise before returning)
  becomes `Except` / `Option`; calls into external collaborators
  (`determine_ts`, `make_graph`, the file system) become explicit input
  data describing the collaborator's outcome.
-/

/-! ## `check_same_sign` (confirm_imag_modes.py, lines 148-172)

The Python loop carries the mutable `first_sign` (initially `0`); every
element is classified by `sign = 1 if num > 0 else -1`.  Note the `else`
branch tags zero entries with sign `-1`. -/

/-- Loop body of `check_same_sign`: `first_sign` is the accumulated first
sign (`0` while no element has been seen). -/
def check_same_sign_loop (first_sign : ℤ) : List ℚ → Bool
  | [] => true
  | num :: rest =>
    let sign : ℤ := if num > 0 then 1 else -1
    if first_sign = 0 then
      check_same_sign_loop sign rest
    else if sign ≠ 0 ∧ sign ≠ first_sign then
      false
    else
      check_same_sign_loop first_sign rest

/-- `check_same_sign(mode_list)` from confirm_imag_modes.py. -/
def check_same_sign (mode_list : List ℚ) : Bool :=
  check_same_sign_loop 0 mode_list

/-! ## `check_if_bond_lengths_intermediate` (confirm_imag_modes.py, lines 115-145) -/

/-- `check_if_bond_lengths_intermediate(ts_distances, reac_distances,
prod_distances, active_bonds_forming, active_bonds_breaking, factor)`:
the two `for` loops with early `return False` are the two `List.all`
conjuncts (a loop that returns `False` at the first violating bond and
`True` after both loops complete computes exactly this conjunction). -/
def check_if_bond_lengths_intermediate
    (ts_distances reac_distances prod_distances : ℕ → ℕ → ℚ)
    (active_bonds_forming active_bonds_breaking : List (ℕ × ℕ))
    (factor : ℚ) : Bool :=
  (active_bonds_forming.all fun b =>
    !(ts_distances b.1 b.2 < prod_distances b.1 b.2 * factor : Bool)) &&
  (active_bonds_breaking.all fun b =>
    !(ts_distances b.1 b.2 < reac_distances b.1 b.2 * factor : Bool))

/-! ## `determine_unactivated_bonds` (confirm_imag_modes.py, lines 74-112)

The function's own extraction step (`extract_info_ts_file`) supplies the
three distance matrices and the two active-bond sets; the decision claims
quantify over those extracted values, so the embedded function takes them
directly.  The two accumulation loops append, in order, the forming bonds
then the breaking bonds that fail the activation threshold. -/

/-- Core of `determine_unactivated_bonds`: the two appending loops over
`active_bonds_forming` and `active_bonds_breaking`. -/
def determine_unactivated_bonds
    (ts_distances reac_distances prod_distances : ℕ → ℕ → ℚ)
    (active_bonds_forming active_bonds_breaking : List (ℕ × ℕ))
    (factor : ℚ) : List (ℕ × ℕ) :=
  (active_bonds_forming.filter fun b =>
    (ts_distances b.1 b.2 < prod_distances b.1 b.2 * factor : Bool)) ++
  (active_bonds_breaking.filter fun b =>
    (ts_distances b.1 b.2 < reac_distances b.1 b.2 * factor : Bool))

/-! ## Bond classification loop (confirm_imag_modes.py, lines 252-267)

`for bond in all_bonds: if bond in active_bonds: ... else: ...` filling the
two dicts `active_bonds_involved_in_mode` and
`extra_bonds_involved_in_mode` with the signed `delta_mode` entry. -/

/-- The classification loop of `extract_info_ts_file`: given `all_bonds`,
the active set, the `delta_mode` matrix and `cut_off`, build the pair
(`active_bonds_involved_in_mode`, `extra_bonds_involved_in_mode`) as
association lists in iteration order. -/
def classify_bonds (all_bonds active_bonds : List (ℕ × ℕ))
    (delta_mode : ℕ → ℕ → ℚ) (cut_off : ℚ) :
    List ((ℕ × ℕ) × ℚ) × List ((ℕ × ℕ) × ℚ) :=
  match all_bonds with
  | [] => ([], [])
  | bond :: rest =>
    let tails := classify_bonds rest active_bonds delta_mode cut_off
    if bond ∈ active_bonds then
      if |delta_mode bond.1 bond.2| < 2 * cut_off then
        tails
      else
        ((bond, delta_mode bond.1 bond.2) :: tails.1, tails.2)
    else
      if |delta_mode bond.1 bond.2| < cut_off then
        tails
      else
        (tails.1, (bond, delta_mode bond.1 bond.2) :: tails.2)

/-! ## `validate_ts_guess` (confirm_imag_modes.py, lines 14-71)

The claims about `validate_ts_guess` quantify over the inputs on which the
extraction step `extract_info_ts_file` succeeds, so the embedded decision
function takes the extracted tuple (its eight components, in the source's
order) as input.  The `final=True` side effect (`move_final_guess_xyz`,
a file copy) does not affect the returned value and is external I/O, so it
is not modelled. -/

/-- The tuple returned by `extract_info_ts_file` (confirm_imag_modes.py,
lines 269-270), as consumed by `validate_ts_guess` and
`determine_unactivated_bonds`. -/
structure ExtractedInfo where
  freq : ℚ
  active_bonds_involved_in_mode : List ((ℕ × ℕ) × ℚ)
  extra_bonds_involved_in_mode : List ((ℕ × ℕ) × ℚ)
  active_bonds_forming : List (ℕ × ℕ)
  active_bonds_breaking : List (ℕ × ℕ)
  reac_distances : ℕ → ℕ → ℚ
  prod_distances : ℕ → ℕ → ℚ
  ts_distances : ℕ → ℕ → ℚ

/-- `active_formed_bonds_involved_in_mode` (confirm_imag_modes.py, lines
47-50): values of `active_bonds_involved_in_mode` at the keys also in
`active_bonds_forming`.  (The Python set intersection enumerates these in
unspecified order; `check_same_sign`, the only consumer, is proved
order-insensitive by `check_same_sign_iff`.) -/
def active_formed_values (info : ExtractedInfo) : List ℚ :=
  (info.active_bonds_involved_in_mode.filter fun p =>
    p.1 ∈ info.active_bonds_forming).map Prod.snd

/-- `active_broken_bonds_involved_in_mode` (confirm_imag_modes.py, lines
51-54). -/
def active_broken_values (info : ExtractedInfo) : List ℚ :=
  (info.active_bonds_involved_in_mode.filter fun p =>
    p.1 ∈ info.active_bonds_breaking).map Prod.snd

/-- `validate_ts_guess` (confirm_imag_modes.py, lines 42-71), as a function
of the extracted information and of the `factor` and `freq_cut_off`
parameters: the final `if`/`else` returning `True` or `False`. -/
def validate_ts_guess (info : ExtractedInfo) (factor freq_cut_off : ℚ) : Bool :=
  let bond_lengths_intermediate :=
    check_if_bond_lengths_intermediate info.ts_distances info.reac_distances
      info.prod_distances info.active_bonds_forming info.active_bonds_breaking factor
  if info.extra_bonds_involved_in_mode.length = 0 ∧
      info.active_bonds_involved_in_mode.length ≠ 0 ∧
      check_same_sign (active_formed_values info) = true ∧
      check_same_sign (active_broken_values info) = true ∧
      bond_lengths_intermediate = true ∧
      info.freq < - freq_cut_off then
    true
  else
    false

/-! ## Geometry displacement and the delta-mode matrix
(confirm_imag_modes.py, lines 227-242 and 339-392)

Points are rational triples; the squared Euclidean norm is rational, and
only the final distance-matrix entry takes a real square root.  In the
shrink loop of `displaced_species_along_mode` the Python test
`max(norm(coords - disp_coords)) < max_atom_disp` is embedded as the
exactly equivalent rational test
`0 ≤ max_atom_disp ∧ max(sq_norm(coords - disp_coords)) < max_atom_disp²`
(norms are nonnegative and squaring is monotone on nonnegatives, so the
two tests agree for every value of `max_atom_disp`, including the
negative ones where both are false). -/

/-- A Cartesian point, `(x, y, z)`. -/
abbrev Point : Type := ℚ × ℚ × ℚ

/-- Componentwise sum of two points. -/
def pt_add (p q : Point) : Point := (p.1 + q.1, p.2.1 + q.2.1, p.2.2 + q.2.2)

/-- Componentwise difference of two points. -/
def pt_sub (p q : Point) : Point := (p.1 - q.1, p.2.1 - q.2.1, p.2.2 - q.2.2)

/-- Scalar multiple of a point. -/
def pt_smul (c : ℚ) (p : Point) : Point := (c * p.1, c * p.2.1, c * p.2.2)

/-- Squared Euclidean norm of a point. -/
def sq_norm (p : Point) : ℚ := p.1 ^ 2 + p.2.1 ^ 2 + p.2.2 ^ 2

/-- `np.max(np.linalg.norm(coords - disp_coords, axis=1))`, squared: the
maximum squared per-atom displacement between two coordinate lists. -/
def max_sq_disp (coords disp_coords : List Point) : ℚ :=
  (List.zipWith (fun p q => sq_norm (pt_sub p q)) coords disp_coords).foldr max 0

/-- The `for _ in range(20)` shrink loop of `displaced_species_along_mode`
(confirm_imag_modes.py, lines 373-381): check the displacement ceiling,
`break` if satisfied, otherwise subtract `(disp_factor / 20) * normal_mode`
and continue; after 20 iterations the loop ends regardless. -/
def shrink_disp_loop (coords normal_mode : List Point)
    (disp_factor max_atom_disp : ℚ) : ℕ → List Point → List Point
  | 0, disp_coords => disp_coords
  | n + 1, disp_coords =>
    if 0 ≤ max_atom_disp ∧ max_sq_disp coords disp_coords < max_atom_disp ^ 2 then
      disp_coords
    else
      shrink_disp_loop coords normal_mode disp_factor max_atom_disp n
        (List.zipWith (fun d m => pt_sub d (pt_smul (disp_factor / 20) m))
          disp_coords normal_mode)

/-- `displaced_species_along_mode(species, normal_mode, disp_factor,
max_atom_disp)` (confirm_imag_modes.py, lines 339-392), on coordinates:
start from `coords + disp_factor * normal_mode` and run the shrink loop. -/
def displaced_species_along_mode (coords normal_mode : List Point)
    (disp_factor : ℚ) (max_atom_disp : ℚ) : List Point :=
  shrink_disp_loop coords normal_mode disp_factor max_atom_disp 20
    (List.zipWith (fun c m => pt_add c (pt_smul disp_factor m)) coords normal_mode)

/-- Euclidean distance between two points (`scipy.spatial.distance_matrix`
entry). -/
noncomputable def euclid_dist (p q : Point) : ℝ :=
  Real.sqrt ((sq_norm (pt_sub p q) : ℚ) : ℝ)

/-- Entry `(i, j)` of `distance_matrix(g, g)` for a coordinate list `g`. -/
noncomputable def distance_matrix_entry (g : List Point) (i j : ℕ) : ℝ :=
  euclid_dist (g.getD i (0, 0, 0)) (g.getD j (0, 0, 0))

/-- The `delta_mode` matrix entry computed by `extract_info_ts_file`
(confirm_imag_modes.py, lines 229-242): the difference of the distance
matrices of `displaced_species_along_mode(ts_mol, normal_mode,
disp_factor=1)` and `displaced_species_along_mode(reactant, normal_mode,
disp_factor=-1)` (the source passes the *reactant* geometry to the
backward displacement), at the default `max_atom_disp = 99.9`. -/
noncomputable def delta_mode_entry (ts_coords reac_coords normal_mode : List Point)
    (i j : ℕ) : ℝ :=
  distance_matrix_entry (displaced_species_along_mode ts_coords normal_mode 1 (999/10)) i j -
  distance_matrix_entry (displaced_species_along_mode reac_coords normal_mode (-1) (999/10)) i j

/-- Modelled from the spec (section 4.2: "compute displaced geometries at
`+1` and `−1` along the mode vector", both from the candidate TS): the
delta-mode entry when the forward and the backward displacement are both
applied to the same candidate TS geometry. -/
noncomputable def delta_mode_entry_per_spec (ts_coords normal_mode : List Point)
    (i j : ℕ) : ℝ :=
  distance_matrix_entry (displaced_species_along_mode ts_coords normal_mode 1 (999/10)) i j -
  distance_matrix_entry (displaced_species_along_mode ts_coords normal_mode (-1) (999/10)) i j

/-! ## `compare_molecules_irc` (irc_search.py, lines 173-192)

The external collaborator `make_graph(mol, rel_tolerance)` rebuilds a
molecule's bond graph at a given relative tolerance; it depends only on
the (re-optimized, fixed) geometry and the tolerance, so it is modelled
as a given function from the tolerance to the four edge sets.  The body
after the two re-optimization calls is the tolerance sweep. -/

/-- The four edge sets produced by `update_molecular_graphs` at one
tolerance: bond graphs of the forward endpoint, the reverse endpoint, the
reactant, and the product. -/
structure EdgeSets where
  forward : Finset (ℕ × ℕ)
  reverse : Finset (ℕ × ℕ)
  reactant : Finset (ℕ × ℕ)
  product : Finset (ℕ × ℕ)

/-- The `for rel_tolerance in [...]` loop of `compare_molecules_irc`
(irc_search.py, lines 183-192): at each tolerance rebuild the four graphs
and test both orientations; `return True` on the first match, fall
through to `return False`. -/
def compare_molecules_irc_loop (graphs : ℚ → EdgeSets) : List ℚ → Bool
  | [] => false
  | tol :: rest =>
    let g := graphs tol
    if g.forward = g.reactant ∧ g.reverse = g.product then
      true
    else if g.forward = g.product ∧ g.reverse = g.reactant then
      true
    else
      compare_molecules_irc_loop graphs rest

/-- `compare_molecules_irc` (irc_search.py, lines 173-192), given the
graph-inference collaborator: the sweep over the fixed tolerance sequence
`[0.3, 0.25, 0.20, 0.15, 0.10]`. -/
def compare_molecules_irc (graphs : ℚ → EdgeSets) : Bool :=
  compare_molecules_irc_loop graphs [3/10, 1/4, 1/5, 3/20, 1/10]

/-! ## `optimize_individual_ts` (run_ts_searcher_dft.py, lines 36-72)

The external work done in one attempt (`set_ts_guess_list`,
`determine_ts`, `remove_files_in_directory`) is modelled by the attempt's
observable outcome: it either raises some exception (anywhere inside the
`try` block) or completes with the boolean `ts_found`. -/

/-- Outcome of one `try` block body in the retry loop: the attempt raised
an exception (caught by the `except` clause), or ran to completion with
the boolean result of `determine_ts`. -/
inductive AttemptOutcome where
  | exc : AttemptOutcome
  | ok : Bool → AttemptOutcome
deriving DecidableEq

/-- The inner `for _ in range(3)` retry loop of `optimize_individual_ts`
for one reactive-complex factor, over the list of remaining attempt
indices: `if ts_found: return ts_optimizer.rxn_id` when the attempt ran to
completion with a positive verdict, otherwise (exception caught by the
`except` clause, or negative verdict) continue with the next attempt. -/
def optimize_attempts (rxn_id : ℕ) (attempt : ℚ → ℕ → AttemptOutcome)
    (factor : ℚ) : List ℕ → Option ℕ
  | [] => none
  | i :: rest =>
    if attempt factor i = AttemptOutcome.ok true then
      some rxn_id
    else
      optimize_attempts rxn_id attempt factor rest

/-- The outer `for reactive_complex_factor in reactive_complex_factor_values`
loop of `optimize_individual_ts` (run_ts_searcher_dft.py, lines 55-72):
three attempts per factor; after exhausting all factors `return None`. -/
def optimize_factors (rxn_id : ℕ) (attempt : ℚ → ℕ → AttemptOutcome) :
    List ℚ → Option ℕ
  | [] => none
  | factor :: rest =>
    match optimize_attempts rxn_id attempt factor [0, 1, 2] with
    | some r => some r
    | none => optimize_factors rxn_id attempt rest

/-- `optimize_individual_ts` (run_ts_searcher_dft.py, lines 36-72), given
the reaction id, the selected list of reactive-complex factor values, and
the outcome of each (factor, attempt-index) try-block body.  The function
is total: every exception inside an attempt is consumed by the
`except ... continue` clause, and the only results are `some rxn_id`
(first accepted TS guess) and `none` (the failure marker). -/
def optimize_individual_ts (rxn_id : ℕ)
    (reactive_complex_factor_values : List ℚ)
    (attempt : ℚ → ℕ → AttemptOutcome) : Option ℕ :=
  optimize_factors rxn_id attempt reactive_complex_factor_values

/-! ## `validate_individual_ts` / `validate_ts_guesses`
(dft_validation.py, lines 28-72 and 75-113)

Python runtime values returned by `validate_individual_ts` are either a
reaction id or the boolean `False`; `None` is in the value domain because
the list comprehension in `validate_ts_guesses` filters with
`r is not None`. -/

/-- The Python values relevant to the validation orchestrator: `None`,
`False`, or a reaction id. -/
inductive PyVal where
  | vNone : PyVal
  | vFalse : PyVal
  | vId : ℕ → PyVal
deriving DecidableEq

/-- One file name from `os.listdir(guess_dir_path)`, abstracted to the two
string tests the loop applies (`'ts_guess' in file`,
`file.endswith('.xyz')`) plus an identifying token. -/
structure FileEntry where
  has_ts_guess : Bool
  is_xyz : Bool
  fid : ℕ
deriving DecidableEq

/-- The `for file in os.listdir(...)` loop of `validate_individual_ts`
(dft_validation.py, lines 47-53), restricted to its effect on
`ts_guess_file`: each match overwrites the variable, so the final value
is the last matching file (the `reactants_geometry.xyz` /
`products_geometry.xyz` branches only copy files and do not touch
`ts_guess_file`). -/
def find_ts_guess_file : List FileEntry → Option ℕ
  | [] => none
  | f :: rest =>
    match find_ts_guess_file rest with
    | some g => some g
    | none => if f.has_ts_guess && f.is_xyz then some f.fid else none

/-- Input of one reaction's validation: the reaction id, the outcome of
`os.listdir(guess_dir_path)` (`Except.error` models the directory listing
raising, which the surrounding `try`/`except` catches, leaving
`ts_guess_file = None`), and the outcome of the single
`ts_optimizer.determine_ts(xtb=False)` call. -/
structure RxnValidationInput where
  rxn_id : ℕ
  listing : Except Unit (List FileEntry)
  verdict : AttemptOutcome

/-- `validate_individual_ts` (dft_validation.py, lines 28-72):
`ts_validated` starts `False`; if a guess file was found, `determine_ts`
is tried once with every exception caught; `return ts_optimizer.rxn_id`
if validated, else `return False`. -/
def validate_individual_ts (r : RxnValidationInput) : PyVal :=
  let ts_guess_file : Option ℕ :=
    match r.listing with
    | Except.error _ => none
    | Except.ok files => find_ts_guess_file files
  match ts_guess_file with
  | none => PyVal.vFalse
  | some _ =>
    match r.verdict with
    | AttemptOutcome.ok true => PyVal.vId r.rxn_id
    | _ => PyVal.vFalse

/-- `validate_ts_guesses` (dft_validation.py, lines 75-113), restricted to
its returned value: map `validate_individual_ts` over the batch
(`executor.map` yields results in submission order) and keep the results
`r` with `r is not None`. -/
def validate_ts_guesses (batch : List RxnValidationInput) : List PyVal :=
  (batch.map validate_individual_ts).filter fun r => r ≠ PyVal.vNone

/-! ## `read_first_normal_mode` (confirm_imag_modes.py, lines 291-336)

A line of the `g98.out` file is abstracted to the three outcomes the
function distinguishes: a line containing `'Frequencies'` (with the
frequency value its `split` extracts), a line matching the mode-vector
regular expression (with the three matched coordinates), or any other
line.  The caller (`extract_info_ts_file`) passes `log_file=False`, so
the offset below the frequency line is 7.  If no line contains
`'Frequencies'`, the final `return np.array(normal_mode), frequency`
reads the never-assigned local `frequency` and the call fails
(deterministically) with an unbound-local error; this failure is the
`Except.error` case. -/

/-- One line of the vibrational-analysis output, as observed by
`read_first_normal_mode`. -/
inductive G98Line where
  | freqLine : ℚ → G98Line
  | modeLine : ℚ → ℚ → ℚ → G98Line
  | other : G98Line
deriving DecidableEq

/-- Whether a line contains the `'Frequencies'` marker. -/
def is_freq_line : G98Line → Bool
  | G98Line.freqLine _ => true
  | _ => false

/-- The inner `for sub_line in lines[...]:` loop (confirm_imag_modes.py,
lines 324-333): append the matched `(x, y, z)` triple for each line
matching the pattern, `break` at the first non-matching line. -/
def take_mode_lines : List G98Line → List (ℚ × ℚ × ℚ)
  | G98Line.modeLine x y z :: rest => (x, y, z) :: take_mode_lines rest
  | _ => []

/-- Index and frequency value of the first line containing
`'Frequencies'` (the outer loop breaks after processing it; `lines.index`
on that line yields its index). -/
def find_first_freq : List G98Line → ℕ → Option (ℕ × ℚ)
  | [], _ => none
  | G98Line.freqLine f :: _, i => some (i, f)
  | _ :: rest, i => find_first_freq rest (i + 1)

/-- `read_first_normal_mode(filename)` (confirm_imag_modes.py, lines
291-336) with the default `log_file=False`, on the file's line list. -/
def read_first_normal_mode (lines : List G98Line) :
    Except Unit (List (ℚ × ℚ × ℚ) × ℚ) :=
  match find_first_freq lines 0 with
  | none => Except.error ()
  | some (i, f) => Except.ok (take_mode_lines (lines.drop (i + 7)), f)

/-! # Theorems settling the claims -/

/-! ## Shared lemmas -/

-- With a nonzero reference sign the loop accepts exactly when every
-- remaining element is classified with that sign.
lemma check_same_sign_loop_ne_zero (s : ℤ) (hs : s = 1 ∨ s = -1) (l : List ℚ) :
    check_same_sign_loop s l = true ↔
      ∀ x ∈ l, (if 0 < x then (1 : ℤ) else -1) = s := by
  induction l with
  | nil => simp [check_same_sign_loop]
  | cons x rest ih =>
    have hs0 : ¬ s = 0 := by rcases hs with h | h <;> simp [h]
    have hsgn : ¬ ((if 0 < x then (1 : ℤ) else -1) = 0) := by split <;> simp
    by_cases hx : (if 0 < x then (1 : ℤ) else -1) = s
    · simp only [check_same_sign_loop, if_neg hs0, gt_iff_lt]
      rw [if_neg (by simp [hx])]
      simpa [hx] using ih
    · simp only [check_same_sign_loop, if_neg hs0, gt_iff_lt]
      rw [if_pos ⟨hsgn, hx⟩]
      simp [hx]

-- `check_same_sign` accepts exactly the lists whose entries all receive the
-- same code-assigned sign; since the code tags every nonpositive entry
-- (zero included) with sign `-1`, that means: all entries positive, or all
-- entries nonpositive.  In particular the result does not depend on the
-- order of the list.
lemma check_same_sign_iff (l : List ℚ) :
    check_same_sign l = true ↔ ((∀ x ∈ l, 0 < x) ∨ (∀ x ∈ l, x ≤ 0)) := by
  cases l with
  | nil => simp [check_same_sign, check_same_sign_loop]
  | cons x rest =>
    have hbranch : check_same_sign (x :: rest) =
        check_same_sign_loop (if 0 < x then (1 : ℤ) else -1) rest := by
      simp [check_same_sign, check_same_sign_loop]
    by_cases hx : 0 < x
    · rw [hbranch, if_pos hx, check_same_sign_loop_ne_zero 1 (Or.inl rfl) rest]
      constructor
      · intro h
        refine Or.inl ?_
        intro y hy
        rcases List.mem_cons.mp hy with rfl | hy
        · exact hx
        · have := h y hy
          by_contra hny
          simp [if_neg hny] at this
      · rintro (h | h)
        · intro y hy
          exact if_pos (h y (List.mem_cons_of_mem _ hy))
        · exact absurd (h x (List.mem_cons_self x rest)) (not_le.mpr hx)
    · rw [hbranch, if_neg hx, check_same_sign_loop_ne_zero (-1) (Or.inr rfl) rest]
      constructor
      · intro h
        refine Or.inr ?_
        intro y hy
        rcases List.mem_cons.mp hy with rfl | hy
        · exact not_lt.mp hx
        · have := h y hy
          by_contra hny
          simp [if_pos (not_le.mp hny)] at this
      · rintro (h | h)
        · exact absurd (h x (List.mem_cons_self x rest)) hx
        · intro y hy
          exact if_neg (not_lt.mpr (h y (List.mem_cons_of_mem _ hy)))

/-! ## Claim C3 -/

/-- Claim C3 (code-bug evaluation): `check_same_sign` applied to the list
`[1.0, 0.0]` — a list containing only positive and zero values, which the
claim says must pass — returns `False`.  The `else` branch of
`sign = 1 if num > 0 else -1` classifies the zero entry with sign `-1`,
so `sign != 0` never holds and zero entries are not sign-neutral. -/
theorem check_same_sign_zero_not_neutral : check_same_sign [(1 : ℚ), 0] = false := by
  decide

/-! ## Claim C5 -/

/-- Claim C5: `check_if_bond_lengths_intermediate` returns `True` iff every
forming bond's TS distance is at least `factor` times that bond's product
distance and every breaking bond's TS distance is at least `factor` times
that bond's reactant distance; one violating bond of either kind makes it
return `False` (the contrapositive of this iff on a `Bool`). -/
theorem check_if_bond_lengths_intermediate_iff
    (ts_distances reac_distances prod_distances : ℕ → ℕ → ℚ)
    (active_bonds_forming active_bonds_breaking : List (ℕ × ℕ)) (factor : ℚ) :
    check_if_bond_lengths_intermediate ts_distances reac_distances prod_distances
        active_bonds_forming active_bonds_breaking factor = true ↔
      ((∀ b ∈ active_bonds_forming,
          factor * prod_distances b.1 b.2 ≤ ts_distances b.1 b.2) ∧
       (∀ b ∈ active_bonds_breaking,
          factor * reac_distances b.1 b.2 ≤ ts_distances b.1 b.2)) := by
  simp [check_if_bond_lengths_intermediate, List.all_eq_true, not_lt, mul_comm]

/-! ## Claim C10 -/

/-- Claim C10: on the same TS, reactant, and product distance matrices,
bond sets, and factor, the decision engine's intermediacy check passes iff
the diagnostic `determine_unactivated_bonds` returns the empty list: both
test `ts_distance < target_distance * factor` bond by bond. -/
theorem check_if_bond_lengths_intermediate_iff_no_unactivated
    (ts_distances reac_distances prod_distances : ℕ → ℕ → ℚ)
    (active_bonds_forming active_bonds_breaking : List (ℕ × ℕ)) (factor : ℚ) :
    check_if_bond_lengths_intermediate ts_distances reac_distances prod_distances
        active_bonds_forming active_bonds_breaking factor = true ↔
      determine_unactivated_bonds ts_distances reac_distances prod_distances
        active_bonds_forming active_bonds_breaking factor = [] := by
  simp [check_if_bond_lengths_intermediate, determine_unactivated_bonds,
    List.append_eq_nil, List.filter_eq_nil_iff, List.all_eq_true]

/-! ## Claim C7 -/

-- The tolerance-sweep loop accepts iff some tolerance in the remaining
-- list matches in one of the two orientations.
lemma compare_molecules_irc_loop_iff (graphs : ℚ → EdgeSets) (tols : List ℚ) :
    compare_molecules_irc_loop graphs tols = true ↔
      ∃ tol ∈ tols,
        (((graphs tol).forward = (graphs tol).reactant ∧
          (graphs tol).reverse = (graphs tol).product) ∨
         ((graphs tol).forward = (graphs tol).product ∧
          (graphs tol).reverse = (graphs tol).reactant)) := by
  induction tols with
  | nil => simp [compare_molecules_irc_loop]
  | cons t rest ih =>
    by_cases h1 : (graphs t).forward = (graphs t).reactant ∧
        (graphs t).reverse = (graphs t).product
    · simp [compare_molecules_irc_loop, h1]
    · by_cases h2 : (graphs t).forward = (graphs t).product ∧
          (graphs t).reverse = (graphs t).reactant
      · simp [compare_molecules_irc_loop, h1, h2]
      · simp [compare_molecules_irc_loop, h1, h2, ih]

/-- Claim C7: `compare_molecules_irc` sweeps the fixed descending tolerance
sequence `[0.30, 0.25, 0.20, 0.15, 0.10]`, rebuilding the four bond graphs
at each tolerance, and returns `True` exactly when some tolerance in that
sequence matches in one of the two orientations (forward≡reactant ∧
reverse≡product, or forward≡product ∧ reverse≡reactant, as edge-set
equality) — in particular `False` when no tolerance matches.  (Returning at
the *first* matching tolerance and returning at *some* matching tolerance
give the same value; the first-match order is the definition's.) -/
theorem compare_molecules_irc_iff (graphs : ℚ → EdgeSets) :
    compare_molecules_irc graphs = true ↔
      ∃ tol ∈ [(3 : ℚ)/10, 1/4, 1/5, 3/20, 1/10],
        (((graphs tol).forward = (graphs tol).reactant ∧
          (graphs tol).reverse = (graphs tol).product) ∨
         ((graphs tol).forward = (graphs tol).product ∧
          (graphs tol).reverse = (graphs tol).reactant)) :=
  compare_molecules_irc_loop_iff graphs _

/-! ## Claim C1 -/

/-- Claim C1: for every extraction result, `validate_ts_guess` returns
`True` iff the extra-bonds mapping is empty, the active-bonds mapping is
non-empty, the forming-bond and the breaking-bond displacement lists each
pass `check_same_sign` (the code's same-sign rule; by
`check_same_sign_iff` the outcome is independent of the enumeration order
of the Python set intersections), the bond-length intermediacy check
passes, and the frequency is strictly below `-freq_cut_off`; in every
other case it returns `False` (the contrapositive of this iff on a
`Bool`), so in particular a non-empty extra-bonds mapping forces
`False`. -/
theorem validate_ts_guess_iff (info : ExtractedInfo) (factor freq_cut_off : ℚ) :
    validate_ts_guess info factor freq_cut_off = true ↔
      (info.extra_bonds_involved_in_mode = [] ∧
       info.active_bonds_involved_in_mode ≠ [] ∧
       check_same_sign (active_formed_values info) = true ∧
       check_same_sign (active_broken_values info) = true ∧
       check_if_bond_lengths_intermediate info.ts_distances info.reac_distances
         info.prod_distances info.active_bonds_forming info.active_bonds_breaking
         factor = true ∧
       info.freq < - freq_cut_off) := by
  simp [validate_ts_guess, List.length_eq_zero]

/-! ## Claim C6 -/

-- Membership in the active half of the classification: exactly the bonds
-- of `all_bonds` that are active and whose absolute delta-mode entry is
-- not below `2 * cut_off`, paired with their signed delta-mode entry.
lemma mem_classify_bonds_fst (all_bonds active_bonds : List (ℕ × ℕ))
    (delta_mode : ℕ → ℕ → ℚ) (cut_off : ℚ) (p : (ℕ × ℕ) × ℚ) :
    p ∈ (classify_bonds all_bonds active_bonds delta_mode cut_off).1 ↔
      p.1 ∈ all_bonds ∧ p.1 ∈ active_bonds ∧
        ¬ |delta_mode p.1.1 p.1.2| < 2 * cut_off ∧
        p.2 = delta_mode p.1.1 p.1.2 := by
  induction all_bonds with
  | nil => simp [classify_bonds]
  | cons bond rest ih =>
    simp only [classify_bonds]
    split_ifs with hact hsmall hsmall
    · rw [ih]
      constructor
      · rintro ⟨h1, h2, h3, h4⟩
        exact ⟨List.mem_cons_of_mem _ h1, h2, h3, h4⟩
      · rintro ⟨h1, h2, h3, h4⟩
        rcases List.mem_cons.mp h1 with h | h
        · exact absurd (by rw [h]; exact hsmall) h3
        · exact ⟨h, h2, h3, h4⟩
    · simp only [List.mem_cons, ih]
      constructor
      · rintro (h | ⟨h1, h2, h3, h4⟩)
        · rw [h]
          exact ⟨Or.inl rfl, hact, hsmall, rfl⟩
        · exact ⟨Or.inr h1, h2, h3, h4⟩
      · rintro ⟨h1, h2, h3, h4⟩
        rcases h1 with h | h
        · left
          rw [Prod.ext_iff]
          exact ⟨h, by rw [h4, h]⟩
        · exact Or.inr ⟨h, h2, h3, h4⟩
    · rw [ih]
      constructor
      · rintro ⟨h1, h2, h3, h4⟩
        exact ⟨List.mem_cons_of_mem _ h1, h2, h3, h4⟩
      · rintro ⟨h1, h2, h3, h4⟩
        rcases List.mem_cons.mp h1 with h | h
        · exact absurd (by rw [← h]; exact h2) hact
        · exact ⟨h, h2, h3, h4⟩
    · rw [ih]
      constructor
      · rintro ⟨h1, h2, h3, h4⟩
        exact ⟨List.mem_cons_of_mem _ h1, h2, h3, h4⟩
      · rintro ⟨h1, h2, h3, h4⟩
        rcases List.mem_cons.mp h1 with h | h
        · exact absurd (by rw [← h]; exact h2) hact
        · exact ⟨h, h2, h3, h4⟩

-- Membership in the extra half of the classification: exactly the bonds
-- of `all_bonds` that are not active and whose absolute delta-mode entry
-- is not below `cut_off`, paired with their signed delta-mode entry.
lemma mem_classify_bonds_snd (all_bonds active_bonds : List (ℕ × ℕ))
    (delta_mode : ℕ → ℕ → ℚ) (cut_off : ℚ) (p : (ℕ × ℕ) × ℚ) :
    p ∈ (classify_bonds all_bonds active_bonds delta_mode cut_off).2 ↔
      p.1 ∈ all_bonds ∧ p.1 ∉ active_bonds ∧
        ¬ |delta_mode p.1.1 p.1.2| < cut_off ∧
        p.2 = delta_mode p.1.1 p.1.2 := by
  induction all_bonds with
  | nil => simp [classify_bonds]
  | cons bond rest ih =>
    simp only [classify_bonds]
    split_ifs with hact hsmall hsmall
    · rw [ih]
      constructor
      · rintro ⟨h1, h2, h3, h4⟩
        exact ⟨List.mem_cons_of_mem _ h1, h2, h3, h4⟩
      · rintro ⟨h1, h2, h3, h4⟩
        rcases List.mem_cons.mp h1 with h | h
        · exact absurd (by rw [← h] at hact; exact hact) h2
        · exact ⟨h, h2, h3, h4⟩
    · rw [ih]
      constructor
      · rintro ⟨h1, h2, h3, h4⟩
        exact ⟨List.mem_cons_of_mem _ h1, h2, h3, h4⟩
      · rintro ⟨h1, h2, h3, h4⟩
        rcases List.mem_cons.mp h1 with h | h
        · exact absurd (by rw [← h] at hact; exact hact) h2
        · exact ⟨h, h2, h3, h4⟩
    · rw [ih]
      constructor
      · rintro ⟨h1, h2, h3, h4⟩
        exact ⟨List.mem_cons_of_mem _ h1, h2, h3, h4⟩
      · rintro ⟨h1, h2, h3, h4⟩
        rcases List.mem_cons.mp h1 with h | h
        · exact absurd (by rw [h]; exact hsmall) h3
        · exact ⟨h, h2, h3, h4⟩
    · simp only [List.mem_cons, ih]
      constructor
      · rintro (h | ⟨h1, h2, h3, h4⟩)
        · rw [h]
          exact ⟨Or.inl rfl, hact, hsmall, rfl⟩
        · exact ⟨Or.inr h1, h2, h3, h4⟩
      · rintro ⟨h1, h2, h3, h4⟩
        rcases h1 with h | h
        · left
          rw [Prod.ext_iff]
          exact ⟨h, by rw [h4, h]⟩
        · exact Or.inr ⟨h, h2, h3, h4⟩

/-- Claim C6: for every bond of `all_bonds` (the union of the reactant and
product edge sets), if the bond is active (in forming ∪ breaking) it
appears in `active_bonds_involved_in_mode` iff `2 * cut_off ≤ |delta|` and
never appears in `extra_bonds_involved_in_mode`; otherwise it appears in
`extra_bonds_involved_in_mode` iff `cut_off ≤ |delta|` and never in
`active_bonds_involved_in_mode`; every value recorded for the bond is the
signed delta-mode entry `delta_mode[bond[0], bond[1]]`. -/
theorem classify_bonds_spec (all_bonds active_bonds : List (ℕ × ℕ))
    (delta_mode : ℕ → ℕ → ℚ) (cut_off : ℚ) (bond : ℕ × ℕ)
    (hb : bond ∈ all_bonds) :
    (bond ∈ active_bonds →
       (((bond, delta_mode bond.1 bond.2) ∈
           (classify_bonds all_bonds active_bonds delta_mode cut_off).1) ↔
         2 * cut_off ≤ |delta_mode bond.1 bond.2|) ∧
       ∀ v, (bond, v) ∉ (classify_bonds all_bonds active_bonds delta_mode cut_off).2) ∧
    (bond ∉ active_bonds →
       (((bond, delta_mode bond.1 bond.2) ∈
           (classify_bonds all_bonds active_bonds delta_mode cut_off).2) ↔
         cut_off ≤ |delta_mode bond.1 bond.2|) ∧
       ∀ v, (bond, v) ∉ (classify_bonds all_bonds active_bonds delta_mode cut_off).1) ∧
    (∀ v, ((bond, v) ∈ (classify_bonds all_bonds active_bonds delta_mode cut_off).1 ∨
           (bond, v) ∈ (classify_bonds all_bonds active_bonds delta_mode cut_off).2) →
       v = delta_mode bond.1 bond.2) := by
  refine ⟨fun hact => ⟨?_, ?_⟩, fun hact => ⟨?_, ?_⟩, ?_⟩
  · rw [mem_classify_bonds_fst, not_lt]
    exact ⟨fun h => h.2.2.1, fun h => ⟨hb, hact, h, rfl⟩⟩
  · intro v hv
    exact ((mem_classify_bonds_snd _ _ _ _ _).mp hv).2.1 hact
  · rw [mem_classify_bonds_snd, not_lt]
    exact ⟨fun h => h.2.2.1, fun h => ⟨hb, hact, h, rfl⟩⟩
  · intro v hv
    exact hact ((mem_classify_bonds_fst _ _ _ _ _).mp hv).2.1
  · intro v hv
    rcases hv with hv | hv
    · exact ((mem_classify_bonds_fst _ _ _ _ _).mp hv).2.2.2
    · exact ((mem_classify_bonds_snd _ _ _ _ _).mp hv).2.2.2

/-- Witness for claim C6's theorem at a concrete input: the single active
bond `(0, 1)` with delta-mode entry `2` and `cut_off = 1` is recorded in
the active mapping. -/
theorem classify_bonds_spec_witness :
    ((0, 1) ∈ ([((0 : ℕ), (1 : ℕ))] : List (ℕ × ℕ))) ∧
    (((0, 1), (2 : ℚ)) ∈
      (classify_bonds [(0, 1)] [(0, 1)] (fun _ _ => 2) 1).1) :=
  ⟨by decide,
   ((classify_bonds_spec [(0, 1)] [(0, 1)] (fun _ _ => 2) 1 (0, 1)
       (by decide)).1 (by decide)).1.mpr (by norm_num)⟩

/-! ## Claim C8 -/

-- The inner retry loop returns the reaction id iff some attempt in the
-- remaining index list reports an accepted TS guess.
lemma optimize_attempts_eq_some_iff (rxn_id : ℕ)
    (attempt : ℚ → ℕ → AttemptOutcome) (factor : ℚ) (idxs : List ℕ) :
    optimize_attempts rxn_id attempt factor idxs = some rxn_id ↔
      ∃ i ∈ idxs, attempt factor i = AttemptOutcome.ok true := by
  induction idxs with
  | nil => simp [optimize_attempts]
  | cons i rest ih =>
    by_cases h : attempt factor i = AttemptOutcome.ok true
    · simp [optimize_attempts, h]
    · simp [optimize_attempts, h, ih]

-- The inner retry loop returns the failure marker iff no attempt in the
-- remaining index list reports an accepted TS guess.
lemma optimize_attempts_eq_none_iff (rxn_id : ℕ)
    (attempt : ℚ → ℕ → AttemptOutcome) (factor : ℚ) (idxs : List ℕ) :
    optimize_attempts rxn_id attempt factor idxs = none ↔
      ∀ i ∈ idxs, attempt factor i ≠ AttemptOutcome.ok true := by
  induction idxs with
  | nil => simp [optimize_attempts]
  | cons i rest ih =>
    by_cases h : attempt factor i = AttemptOutcome.ok true
    · simp [optimize_attempts, h]
    · simp [optimize_attempts, h, ih]

-- The outer factor loop returns the reaction id iff some factor has a
-- successful attempt among its three tries.
lemma optimize_factors_eq_some_iff (rxn_id : ℕ)
    (attempt : ℚ → ℕ → AttemptOutcome) (factors : List ℚ) :
    optimize_factors rxn_id attempt factors = some rxn_id ↔
      ∃ f ∈ factors, ∃ i ∈ [0, 1, 2], attempt f i = AttemptOutcome.ok true := by
  induction factors with
  | nil => simp [optimize_factors]
  | cons f rest ih =>
    cases h : optimize_attempts rxn_id attempt f [0, 1, 2] with
    | none =>
      have hnone := (optimize_attempts_eq_none_iff rxn_id attempt f [0, 1, 2]).mp h
      have hstep : optimize_factors rxn_id attempt (f :: rest) =
          optimize_factors rxn_id attempt rest := by
        simp only [optimize_factors, h]
      rw [hstep, ih]
      constructor
      · rintro ⟨g, hg, hi⟩
        exact ⟨g, List.mem_cons_of_mem _ hg, hi⟩
      · rintro ⟨g, hg, i, hi, hacc⟩
        rcases List.mem_cons.mp hg with hgf | hg
        · exact absurd hacc (by rw [hgf]; exact hnone i hi)
        · exact ⟨g, hg, i, hi, hacc⟩
    | some r =>
      have hr : r = rxn_id := by
        have hne : optimize_attempts rxn_id attempt f [0, 1, 2] ≠ none := by
          simp [h]
        have hex : ∃ i ∈ [0, 1, 2], attempt f i = AttemptOutcome.ok true := by
          by_contra hc
          exact hne ((optimize_attempts_eq_none_iff rxn_id attempt f [0, 1, 2]).mpr
            (by push_neg at hc; exact hc))
        have := (optimize_attempts_eq_some_iff rxn_id attempt f [0, 1, 2]).mpr hex
        rw [h] at this
        exact Option.some_inj.mp this
      rw [hr] at h
      have hstep : optimize_factors rxn_id attempt (f :: rest) = some rxn_id := by
        simp only [optimize_factors, h]
      rw [hstep]
      have hex := (optimize_attempts_eq_some_iff rxn_id attempt f [0, 1, 2]).mp h
      simp only [true_iff]
      obtain ⟨i, hi, hacc⟩ := hex
      exact ⟨f, List.mem_cons_self f rest, i, hi, hacc⟩

-- The outer factor loop returns the failure marker iff no factor has a
-- successful attempt.
lemma optimize_factors_eq_none_iff (rxn_id : ℕ)
    (attempt : ℚ → ℕ → AttemptOutcome) (factors : List ℚ) :
    optimize_factors rxn_id attempt factors = none ↔
      ∀ f ∈ factors, ∀ i ∈ [0, 1, 2], attempt f i ≠ AttemptOutcome.ok true := by
  induction factors with
  | nil => simp [optimize_factors]
  | cons f rest ih =>
    cases h : optimize_attempts rxn_id attempt f [0, 1, 2] with
    | none =>
      have hnone := (optimize_attempts_eq_none_iff rxn_id attempt f [0, 1, 2]).mp h
      have hstep : optimize_factors rxn_id attempt (f :: rest) =
          optimize_factors rxn_id attempt rest := by
        simp only [optimize_factors, h]
      rw [hstep, ih]
      constructor
      · intro hrest g hg i hi
        rcases List.mem_cons.mp hg with hgf | hg
        · rw [hgf]; exact hnone i hi
        · exact hrest g hg i hi
      · intro hall g hg i hi
        exact hall g (List.mem_cons_of_mem _ hg) i hi
    | some r =>
      have hstep : optimize_factors rxn_id attempt (f :: rest) = some r := by
        simp only [optimize_factors, h]
      rw [hstep]
      have hne : optimize_attempts rxn_id attempt f [0, 1, 2] ≠ none := by
        simp [h]
      have hex : ∃ i ∈ [0, 1, 2], attempt f i = AttemptOutcome.ok true := by
        by_contra hc
        exact hne ((optimize_attempts_eq_none_iff rxn_id attempt f [0, 1, 2]).mpr
          (by push_neg at hc; exact hc))
      obtain ⟨i, hi, hacc⟩ := hex
      simp only [reduceCtorEq, false_iff, not_forall]
      exact ⟨f, List.mem_cons_self f rest, i, hi, fun hn => hn hacc⟩

/-- Claim C8: the per-reaction worker `optimize_individual_ts`, given the
ordered factor list and the outcome of each try-block body (an exception
or a verdict — every exception raised inside an attempt is caught by the
`except` clause, so the function is total and no exception propagates out
of the per-reaction call), returns the reaction identifier exactly when
some factor's attempt (among the 3 tries per factor) reports an accepted
TS guess, and returns the failure marker `None` exactly when all factors
and retries are exhausted without an accepted guess — in particular when
every attempt raises an exception. -/
theorem optimize_individual_ts_spec (rxn_id : ℕ) (factors : List ℚ)
    (attempt : ℚ → ℕ → AttemptOutcome) :
    (optimize_individual_ts rxn_id factors attempt = some rxn_id ↔
       ∃ f ∈ factors, ∃ i ∈ [0, 1, 2], attempt f i = AttemptOutcome.ok true) ∧
    (optimize_individual_ts rxn_id factors attempt = none ↔
       ∀ f ∈ factors, ∀ i ∈ [0, 1, 2], attempt f i ≠ AttemptOutcome.ok true) :=
  ⟨optimize_factors_eq_some_iff rxn_id attempt factors,
   optimize_factors_eq_none_iff rxn_id attempt factors⟩

/-! ## Claim C9 -/

-- No frequency line is found (from any start index) iff no line contains
-- the marker.
lemma find_first_freq_eq_none_iff (lines : List G98Line) (i : ℕ) :
    find_first_freq lines i = none ↔ ∀ l ∈ lines, is_freq_line l = false := by
  induction lines generalizing i with
  | nil => simp [find_first_freq]
  | cons l rest ih =>
    cases l with
    | freqLine f => simp [find_first_freq, is_freq_line]
    | modeLine x y z => simp [find_first_freq, is_freq_line, ih]
    | other => simp [find_first_freq, is_freq_line, ih]

/-- Claim C9 (counterexample): a vibrational-analysis file for a 2-atom
system whose mode block is truncated to a single displacement row.  The
claim says `read_first_normal_mode` fails with a parse error when the
parsed mode vector's length (here 1) differs from the declared atom count
(here 2); instead the function returns successfully with the short
vector — it performs no length check at all. -/
theorem read_first_normal_mode_counterexample :
    read_first_normal_mode
        [G98Line.freqLine (-500), G98Line.other, G98Line.other, G98Line.other,
         G98Line.other, G98Line.other, G98Line.other, G98Line.modeLine 1 0 0] =
      Except.ok ([((1 : ℚ), (0 : ℚ), (0 : ℚ))], -500) ∧
    [((1 : ℚ), (0 : ℚ), (0 : ℚ))].length ≠ 2 :=
  ⟨rfl, by decide⟩

/-- Claim C9 as amended: `read_first_normal_mode` fails — deterministically,
with the never-assigned local `frequency` raising at the final `return` —
exactly when no line of the file contains the `Frequencies` marker; when
the marker is present it returns successfully the frequency of the first
marker line together with the run of pattern-matching mode rows starting 7
lines below it, with no check that this vector's length equals the
declared atom count. -/
theorem read_first_normal_mode_spec (lines : List G98Line) :
    (read_first_normal_mode lines = Except.error () ↔
       ∀ l ∈ lines, is_freq_line l = false) ∧
    (∀ i f, find_first_freq lines 0 = some (i, f) →
       read_first_normal_mode lines =
         Except.ok (take_mode_lines (lines.drop (i + 7)), f)) := by
  constructor
  · rw [← find_first_freq_eq_none_iff lines 0]
    unfold read_first_normal_mode
    cases h : find_first_freq lines 0 with
    | none => simp
    | some p => simp
  · intro i f h
    unfold read_first_normal_mode
    rw [h]

/-- Witness for claim C9's amended theorem at a concrete input: a file
whose only line is the frequency marker yields the empty mode vector and
that frequency. -/
theorem read_first_normal_mode_spec_witness :
    read_first_normal_mode [G98Line.freqLine 3] = Except.ok ([], 3) :=
  (read_first_normal_mode_spec [G98Line.freqLine 3]).2 0 3 rfl

/-! ## Claim C2 -/

/-- Claim C2 (code-bug evaluation): a two-reaction batch in which reaction
7 finds a guess file and validates, while reaction 8's guess directory
lists no candidate TS file.  The claim says the failed reaction
contributes no element to the returned list; instead `validate_ts_guesses`
returns `[7, False]`: `validate_individual_ts` returns the Python value
`False` on failure, and the comprehension `[r for r in results if r is not
None]` drops only `None`, so every failed reaction contributes a `False`
element (contradicting the docstring "List of validated reaction IDs"). -/
theorem validate_ts_guesses_keeps_false :
    validate_ts_guesses
        [⟨7, Except.ok [⟨true, true, 0⟩], AttemptOutcome.ok true⟩,
         ⟨8, Except.ok [], AttemptOutcome.ok true⟩] =
      [PyVal.vId 7, PyVal.vFalse] := rfl

/-! ## Claim C4 -/

-- When the displaced coordinates already satisfy the per-atom ceiling,
-- the shrink loop returns them unchanged (for any remaining fuel).
lemma shrink_disp_loop_of_le (coords normal_mode : List Point) (df mad : ℚ)
    (n : ℕ) (disp_coords : List Point) (h1 : 0 ≤ mad)
    (h2 : max_sq_disp coords disp_coords < mad ^ 2) :
    shrink_disp_loop coords normal_mode df mad n disp_coords = disp_coords := by
  cases n with
  | zero => rfl
  | succ m => simp [shrink_disp_loop, h1, h2]

/-- Claim C4 (code-bug evaluation): with the candidate TS geometry
`[(0,0,0), (3,0,0)]`, the reactant geometry `[(0,0,0), (2,0,0)]` and the
zero normal mode, displacing at `+1` and `−1` leaves each geometry
unchanged, so a delta-mode built from the TS geometry alone is `0`
everywhere; the code's `delta_mode[0,1]` is instead `3 − 2 = 1`, because
`extract_info_ts_file` passes `reactant` (not `ts_mol`) to the backward
displacement — contradicting the claim, the spec, and the code's own
comment ("distance matrices -- TS geometry obtained through displacement
along imaginary mode").  The third conjunct records that the two
geometries differ, so the discrepancy is exactly the reactant-for-TS
substitution. -/
theorem delta_mode_uses_reactant_for_backward :
    delta_mode_entry [(0, 0, 0), (3, 0, 0)] [(0, 0, 0), (2, 0, 0)]
        [(0, 0, 0), (0, 0, 0)] 0 1 = 1 ∧
    delta_mode_entry_per_spec [(0, 0, 0), (3, 0, 0)] [(0, 0, 0), (0, 0, 0)] 0 1 = 0 ∧
    ([((0 : ℚ), (0 : ℚ), (0 : ℚ)), (2, 0, 0)] : List Point) ≠
      [((0 : ℚ), (0 : ℚ), (0 : ℚ)), (3, 0, 0)] := by
  have hts : displaced_species_along_mode [(0, 0, 0), (3, 0, 0)]
      [(0, 0, 0), (0, 0, 0)] 1 (999/10) = [(0, 0, 0), (3, 0, 0)] := by
    have hinit : List.zipWith (fun c m => pt_add c (pt_smul (1 : ℚ) m))
        [((0 : ℚ), (0 : ℚ), (0 : ℚ)), (3, 0, 0)] [(0, 0, 0), (0, 0, 0)] =
        [((0 : ℚ), (0 : ℚ), (0 : ℚ)), (3, 0, 0)] := by
      norm_num [List.zipWith, pt_add, pt_smul]
    rw [displaced_species_along_mode, hinit,
      shrink_disp_loop_of_le _ _ _ _ _ _ (by norm_num)
        (by norm_num [max_sq_disp, List.zipWith, sq_norm, pt_sub])]
  have htsb : displaced_species_along_mode [(0, 0, 0), (3, 0, 0)]
      [(0, 0, 0), (0, 0, 0)] (-1) (999/10) = [(0, 0, 0), (3, 0, 0)] := by
    have hinit : List.zipWith (fun c m => pt_add c (pt_smul (-1 : ℚ) m))
        [((0 : ℚ), (0 : ℚ), (0 : ℚ)), (3, 0, 0)] [(0, 0, 0), (0, 0, 0)] =
        [((0 : ℚ), (0 : ℚ), (0 : ℚ)), (3, 0, 0)] := by
      norm_num [List.zipWith, pt_add, pt_smul]
    rw [displaced_species_along_mode, hinit,
      shrink_disp_loop_of_le _ _ _ _ _ _ (by norm_num)
        (by norm_num [max_sq_disp, List.zipWith, sq_norm, pt_sub])]
  have hreac : displaced_species_along_mode [(0, 0, 0), (2, 0, 0)]
      [(0, 0, 0), (0, 0, 0)] (-1) (999/10) = [(0, 0, 0), (2, 0, 0)] := by
    have hinit : List.zipWith (fun c m => pt_add c (pt_smul (-1 : ℚ) m))
        [((0 : ℚ), (0 : ℚ), (0 : ℚ)), (2, 0, 0)] [(0, 0, 0), (0, 0, 0)] =
        [((0 : ℚ), (0 : ℚ), (0 : ℚ)), (2, 0, 0)] := by
      norm_num [List.zipWith, pt_add, pt_smul]
    rw [displaced_species_along_mode, hinit,
      shrink_disp_loop_of_le _ _ _ _ _ _ (by norm_num)
        (by norm_num [max_sq_disp, List.zipWith, sq_norm, pt_sub])]
  have hd3 : distance_matrix_entry [(0, 0, 0), (3, 0, 0)] 0 1 = 3 := by
    unfold distance_matrix_entry euclid_dist
    have h9 : sq_norm (pt_sub (([((0 : ℚ), (0 : ℚ), (0 : ℚ)), (3, 0, 0)] : List Point).getD 0 (0, 0, 0))
        (([((0 : ℚ), (0 : ℚ), (0 : ℚ)), (3, 0, 0)] : List Point).getD 1 (0, 0, 0))) = 9 := by
      norm_num [sq_norm, pt_sub, List.getD]
    rw [h9]
    rw [show (((9 : ℚ) : ℝ)) = 3 ^ 2 by norm_num]
    rw [Real.sqrt_sq (by norm_num : (0 : ℝ) ≤ 3)]
  have hd2 : distance_matrix_entry [(0, 0, 0), (2, 0, 0)] 0 1 = 2 := by
    unfold distance_matrix_entry euclid_dist
    have h4 : sq_norm (pt_sub (([((0 : ℚ), (0 : ℚ), (0 : ℚ)), (2, 0, 0)] : List Point).getD 0 (0, 0, 0))
        (([((0 : ℚ), (0 : ℚ), (0 : ℚ)), (2, 0, 0)] : List Point).getD 1 (0, 0, 0))) = 4 := by
      norm_num [sq_norm, pt_sub, List.getD]
    rw [h4]
    rw [show (((4 : ℚ) : ℝ)) = 2 ^ 2 by norm_num]
    rw [Real.sqrt_sq (by norm_num : (0 : ℝ) ≤ 2)]
  refine ⟨?_, ?_, by simp⟩
  · unfold delta_mode_entry
    rw [hts, hreac, hd3, hd2]
    norm_num
  · unfold delta_mode_entry_per_spec
    rw [hts, htsb, hd3]
    norm_num
